import Mathlib

/-!
Verification of the BusinessGlance dashboard (Go) against its
natural-language specification.  Each Go function relevant to the claims is
shallowly embedded as an executable Lean definition; machine integers become
`Int`/`Nat`, Go `float64` metric arithmetic is idealised as `ℚ`, Go strings
become `String` or `List Char` (Go strings are byte sequences), fallible code
returns `Option`/`Except`, and a Go panic is an explicit `GoResult.panic`.
Stateful methods become pure state transformers taking the current time as an
argument.  The file is laid out as all definitions first, then all theorems.
-/

namespace Glance

/-! # Part 1: Definitions -/

/-! ## Circuit breaker (`internal/glance/stripe_client.go`)

`CircuitBreaker` holds `maxFailures`, `resetTimeout`, a failure counter,
the time of the last failure and the current state.  The Go methods
`CanExecute`, `RecordSuccess` and `RecordFailure` read `time.Now()`; here the
clock is an explicit `now : Int` argument and each method returns the updated
breaker (plus its boolean answer for `CanExecute`). -/

inductive CircuitState where
  | CircuitClosed
  | CircuitOpen
  | CircuitHalfOpen
deriving DecidableEq, Repr

export CircuitState (CircuitClosed CircuitOpen CircuitHalfOpen)

structure CircuitBreaker where
  maxFailures : Nat
  resetTimeout : Int
  failures : Nat
  lastFailTime : Int
  state : CircuitState
deriving DecidableEq, Repr

/-- Embeds `CircuitBreaker.CanExecute`: in `CircuitClosed` it permits the
call; in `CircuitOpen` it transitions to `CircuitHalfOpen` (resetting the
failure counter) and permits the call once `now - lastFailTime > resetTimeout`,
otherwise refuses; in `CircuitHalfOpen` it permits the call unconditionally
and changes nothing. -/
def canExecute (now : Int) (cb : CircuitBreaker) : Bool × CircuitBreaker :=
  match cb.state with
  | CircuitClosed => (true, cb)
  | CircuitOpen =>
      if now - cb.lastFailTime > cb.resetTimeout then
        (true, { cb with state := CircuitHalfOpen, failures := 0 })
      else
        (false, cb)
  | CircuitHalfOpen => (true, cb)

/-- Embeds `CircuitBreaker.RecordSuccess`: only a breaker in
`CircuitHalfOpen` changes, to `CircuitClosed` with the failure counter
cleared. -/
def recordSuccess (cb : CircuitBreaker) : CircuitBreaker :=
  if cb.state = CircuitHalfOpen then
    { cb with state := CircuitClosed, failures := 0 }
  else
    cb

/-- Embeds `CircuitBreaker.RecordFailure`: increments the failure counter,
stamps `lastFailTime`, and moves to `CircuitOpen` only when the incremented
counter reaches `maxFailures`. -/
def recordFailure (now : Int) (cb : CircuitBreaker) : CircuitBreaker :=
  let cb := { cb with failures := cb.failures + 1, lastFailTime := now }
  if cb.failures ≥ cb.maxFailures then
    { cb with state := CircuitOpen }
  else
    cb

/-- The breaker configured by `GetClient`:
`maxFailures: 5, resetTimeout: 60 * time.Second, state: CircuitClosed`. -/
def newCircuitBreaker : CircuitBreaker :=
  { maxFailures := 5
    resetTimeout := 60
    failures := 0
    lastFailTime := 0
    state := CircuitClosed }

/-- A breaker that has just opened: 5 failures recorded, last at time 0. -/
def cbOpenAt0 : CircuitBreaker :=
  { maxFailures := 5, resetTimeout := 60, failures := 5,
    lastFailTime := 0, state := CircuitOpen }

/-- The half-open breaker `CanExecute` produces from `cbOpenAt0` at time 61. -/
def cbHalf : CircuitBreaker :=
  { maxFailures := 5, resetTimeout := 60, failures := 0,
    lastFailTime := 0, state := CircuitHalfOpen }

/-! ## Stripe client pool (`internal/glance/stripe_client.go`)

`GetClient` caches client wrappers in a map keyed by
`fmt.Sprintf("%s:%s", mode, apiKey[:12])`.  `apiKey[:12]` panics in Go when
the key is shorter than 12 bytes, which the embedding makes explicit through
`GoResult.panic`.  Go strings are modelled as `List Char`. -/

inductive GoResult (α : Type) where
  | panic
  | err (msg : String)
  | ok (val : α)
deriving DecidableEq, Repr

structure StripeClientWrapper where
  apiKey : List Char
  mode : List Char
  circuitBreaker : CircuitBreaker
  lastUsed : Int
deriving DecidableEq, Repr

/-- A `sync.Map` of wrappers, modelled as an association list keyed by the
cache key. -/
def ClientPool : Type := List (List Char × StripeClientWrapper)

/-- Lookup in the pool (`p.clients.Load`). -/
def poolLoad (pool : ClientPool) (key : List Char) : Option StripeClientWrapper :=
  match pool.find? (fun e => e.1 = key) with
  | some e => some e.2
  | none => none

/-- Store in the pool (`p.clients.Store`); also used to model the in-place
`wrapper.lastUsed = time.Now()` update on a cache hit. -/
def poolStore (pool : ClientPool) (key : List Char) (w : StripeClientWrapper) :
    ClientPool :=
  (key, w) :: pool.filter (fun e => ¬ e.1 = key)

/-- Embeds `StripeClientPool.GetClient`.  Empty key → error; key shorter
than 12 bytes → the slice `apiKey[:12]` faults (`GoResult.panic`); otherwise
the wrapper cached under `mode ++ ":" ++ apiKey[:12]` is returned with its
`lastUsed` refreshed, or a fresh wrapper (default breaker, the caller's key)
is created and stored. -/
def getClient (pool : ClientPool) (apiKey mode : List Char) (now : Int) :
    GoResult (StripeClientWrapper × ClientPool) :=
  if apiKey = [] then
    .err "stripe API key is required"
  else if apiKey.length < 12 then
    .panic
  else
    let cacheKey := mode ++ ':' :: apiKey.take 12
    match poolLoad pool cacheKey with
    | some w =>
        let w := { w with lastUsed := now }
        .ok (w, poolStore pool cacheKey w)
    | none =>
        let w : StripeClientWrapper :=
          { apiKey := apiKey
            mode := mode
            circuitBreaker := newCircuitBreaker
            lastUsed := now }
        .ok (w, poolStore pool cacheKey w)

/-! ## Monthly-revenue normalization (`internal/glance/widget-revenue.go`)

`calculateMRR` walks the subscriptions returned by the Stripe list call
(the request filters on `status=active` server-side, so the input here is
the list of active subscriptions) and, for each item carrying a price,
normalizes `UnitAmount` (minor units) to a monthly figure by the recurring
interval, multiplies by the quantity and accumulates.  Go `float64`
arithmetic is idealised as `ℚ` (`4.33 = 433/100`). -/

structure Price where
  unitAmount : Int
  interval : String
  intervalCount : Int
deriving DecidableEq, Repr

structure SubscriptionItem where
  price : Option Price
  quantity : Int
deriving DecidableEq, Repr

structure Subscription where
  items : List SubscriptionItem
deriving DecidableEq, Repr

/-- The per-item body of the loop in `calculateMRR`
(`widget-revenue.go:173-204`): items without a price and items with an
unrecognised interval contribute nothing (`continue`). -/
def itemMonthlyAmount (item : SubscriptionItem) : ℚ :=
  match item.price with
  | none => 0
  | some p =>
    let amount : ℚ := (p.unitAmount : ℚ) / 100
    let ic : ℚ := (p.intervalCount : ℚ)
    let monthlyAmount : ℚ :=
      if p.interval = "month" then amount / ic
      else if p.interval = "year" then amount / (12 * ic)
      else if p.interval = "week" then amount * (433 / 100) / ic
      else if p.interval = "day" then amount * 30 / ic
      else 0
    monthlyAmount * (item.quantity : ℚ)

/-- Embeds `revenueWidget.calculateMRR`: the sum of the normalized item
amounts over all fetched (active) subscriptions. -/
def calculateMRR (subs : List Subscription) : ℚ :=
  (subs.map (fun s => (s.items.map itemMonthlyAmount).sum)).sum

/-- Modelled from the spec: the normalization constant
`K(day)=30, K(week)=4.33, K(month)=1, K(year)=1/12`; an interval outside
that set contributes nothing, expressed by `K = 0` there. -/
def specK (interval : String) : ℚ :=
  if interval = "day" then 30
  else if interval = "week" then 433 / 100
  else if interval = "month" then 1
  else if interval = "year" then 1 / 12
  else 0

/-- Modelled from the spec: `perMonth = (amount / 100) * quantity *
K(interval) / intervalCount`; items carrying no price contribute nothing. -/
def specPerMonth (item : SubscriptionItem) : ℚ :=
  match item.price with
  | none => 0
  | some p =>
      (p.unitAmount : ℚ) / 100 * (item.quantity : ℚ) * specK p.interval /
        (p.intervalCount : ℚ)

/-- Modelled from the spec: MRR as the sum of `perMonth` over all items on
all (active) subscriptions. -/
def specMRR (subs : List Subscription) : ℚ :=
  (((subs.map Subscription.items).join).map specPerMonth).sum

/-- The fields of `revenueWidget` that `update` writes from the computed
MRR (`widget-revenue.go:101-102`). -/
structure RevenueWidgetState where
  currentMRR : ℚ
  arr : ℚ
deriving DecidableEq, Repr

/-- Embeds the assignments `w.CurrentMRR = currentMRR; w.ARR = currentMRR * 12`
in `revenueWidget.update`. -/
def setMRRFields (w : RevenueWidgetState) (currentMRR : ℚ) : RevenueWidgetState :=
  { w with currentMRR := currentMRR, arr := currentMRR * 12 }

/-- The spec's worked MRR example: items `(2900, month, 1, 1)`,
`(29900, year, 1, 1)` and `(1000, month, 1, 5)` on one subscription. -/
def demoSubs : List Subscription :=
  [Subscription.mk
    [⟨some ⟨2900, "month", 1⟩, 1⟩, ⟨some ⟨29900, "year", 1⟩, 1⟩,
     ⟨some ⟨1000, "month", 1⟩, 5⟩]]

/-! ## Snapshot store (`SimpleMetricsDB`)

In-memory history of typed metric snapshots, keyed per kind (revenue vs
customer map) and per mode (the map key).  `time.Time` becomes `Int`;
`Equal`/`After`/`Before` become `=`/`>`/`<`.  A `nil` map entry and an
absent entry both behave as the empty list, so the maps are modelled as
total functions defaulting to `[]`. -/

structure RevenueSnapshot where
  Timestamp : Int
  MRR : ℚ
  ARR : ℚ
  GrowthRate : ℚ
  NewMRR : ℚ
  ChurnedMRR : ℚ
  Mode : String
deriving DecidableEq, Repr

structure CustomerSnapshot where
  Timestamp : Int
  TotalCustomers : Int
  NewCustomers : Int
  ChurnedCustomers : Int
  ChurnRate : ℚ
  ActiveCustomers : Int
  Mode : String
deriving DecidableEq, Repr

structure SimpleMetricsDB where
  revenueHistory : String → List RevenueSnapshot
  customerHistory : String → List CustomerSnapshot
  maxHistory : Nat

/-- The store built by `GetSimpleMetricsDB`: empty maps, `maxHistory = 100`. -/
def getSimpleMetricsDB : SimpleMetricsDB :=
  { revenueHistory := fun _ => []
    customerHistory := fun _ => []
    maxHistory := 100 }

/-- The shared tail of both save methods: append, then
`if len > maxHistory { keep the last maxHistory }`. -/
def truncLast (n : Nat) (l : List α) : List α :=
  if l.length > n then l.drop (l.length - n) else l

/-- Embeds `SimpleMetricsDB.SaveRevenueSnapshot`: append under the
snapshot's mode and truncate to the last `maxHistory` records. -/
def SaveRevenueSnapshot (db : SimpleMetricsDB) (s : RevenueSnapshot) :
    SimpleMetricsDB :=
  { db with revenueHistory := fun m =>
      if m = s.Mode then truncLast db.maxHistory (db.revenueHistory s.Mode ++ [s])
      else db.revenueHistory m }

/-- Embeds `SimpleMetricsDB.SaveCustomerSnapshot`. -/
def SaveCustomerSnapshot (db : SimpleMetricsDB) (s : CustomerSnapshot) :
    SimpleMetricsDB :=
  { db with customerHistory := fun m =>
      if m = s.Mode then truncLast db.maxHistory (db.customerHistory s.Mode ++ [s])
      else db.customerHistory m }

/-- Embeds `SimpleMetricsDB.GetRevenueHistory`: filter the mode's history
by `(ts.Equal(start) || ts.After(start)) && (ts.Equal(end) || ts.Before(end))`. -/
def GetRevenueHistory (db : SimpleMetricsDB) (mode : String)
    (startTime endTime : Int) : List RevenueSnapshot :=
  (db.revenueHistory mode).filter fun s =>
    decide ((s.Timestamp = startTime ∨ s.Timestamp > startTime) ∧
            (s.Timestamp = endTime ∨ s.Timestamp < endTime))

/-- Embeds `SimpleMetricsDB.GetLatestRevenue`: the last element of the
mode's history, if any. -/
def GetLatestRevenue (db : SimpleMetricsDB) (mode : String) :
    Option RevenueSnapshot :=
  (db.revenueHistory mode).getLast?

/-- Modelled from the spec: the half-open range query the spec describes,
returning exactly the records with `t0 ≤ ts < t1`. -/
def specRangeHalfOpen (db : SimpleMetricsDB) (mode : String)
    (t0 t1 : Int) : List RevenueSnapshot :=
  (db.revenueHistory mode).filter fun s =>
    decide (t0 ≤ s.Timestamp ∧ s.Timestamp < t1)

/-- A save operation against the store: one snapshot of either kind. -/
inductive SaveOp where
  | rev (s : RevenueSnapshot)
  | cust (s : CustomerSnapshot)
deriving DecidableEq, Repr

def SaveOp.timestamp : SaveOp → Int
  | .rev s => s.Timestamp
  | .cust s => s.Timestamp

def applySave (db : SimpleMetricsDB) (op : SaveOp) : SimpleMetricsDB :=
  match op with
  | .rev s => SaveRevenueSnapshot db s
  | .cust s => SaveCustomerSnapshot db s

/-- Run a sequence of saves against a store. -/
def runSaves (db : SimpleMetricsDB) (ops : List SaveOp) : SimpleMetricsDB :=
  ops.foldl applySave db

/-- The subsequence of revenue snapshots saved under mode `m`. -/
def revSeq (ops : List SaveOp) (m : String) : List RevenueSnapshot :=
  ops.filterMap fun op =>
    match op with
    | .rev s => if m = s.Mode then some s else none
    | .cust _ => none

/-- The subsequence of customer snapshots saved under mode `m`. -/
def custSeq (ops : List SaveOp) (m : String) : List CustomerSnapshot :=
  ops.filterMap fun op =>
    match op with
    | .rev _ => none
    | .cust s => if m = s.Mode then some s else none

/-- A concrete revenue snapshot carrying only a timestamp and mode. -/
def revSnapAt (ts : Int) (mode : String) : RevenueSnapshot :=
  ⟨ts, 0, 0, 0, 0, 0, mode⟩

/-- A concrete customer snapshot carrying only a timestamp and mode. -/
def custSnapAt (ts : Int) (mode : String) : CustomerSnapshot :=
  ⟨ts, 0, 0, 0, 0, 0, mode⟩

/-- A store holding a single live-mode revenue snapshot at time 5. -/
def dbWithSnapAt5 : SimpleMetricsDB :=
  { revenueHistory := fun m => if m = "live" then [revSnapAt 5 "live"] else []
    customerHistory := fun _ => []
    maxHistory := 100 }

/-! ## Customer metrics (`internal/glance/widget-customers.go`)

The tail of `customersWidget.update` (lines 97-196): assign fetched counts
(fields keep their previous value when a fetch errors, except the total,
whose failure aborts the update), derive the churn rate, derive LTV from an
average revenue per active customer, read an operator CAC from the
environment and derive the LTV/CAC ratio.  The fetch outcomes and
environment are explicit inputs; `Option` is `nil`/error versus success. -/

structure CustomersWidgetState where
  TotalCustomers : Int
  NewCustomers : Int
  ChurnedCustomers : Int
  ChurnRate : ℚ
  ActiveCustomers : Int
  CAC : ℚ
  LTV : ℚ
  LTVtoCAC : ℚ
deriving DecidableEq, Repr

/-- A freshly materialised widget: Go zero values. -/
def initCustomersWidget : CustomersWidgetState :=
  ⟨0, 0, 0, 0, 0, 0, 0, 0⟩

structure CustomerFetchResults where
  /-- `getTotalCustomersWithRetry` result (its failure aborts `update`). -/
  totalCustomers : Int
  /-- `getActiveCustomersWithRetry`: `none` = error (field kept). -/
  activeCustomers : Option Int
  /-- `getNewCustomersWithRetry`: `none` = error (field kept). -/
  newCustomers : Option Int
  /-- `getChurnedCustomersWithRetry`: `none` = error (field kept). -/
  churnedCustomers : Option Int
  /-- `GetMetricsDatabase` succeeded (`dbErr == nil`). -/
  dbAvailable : Bool
  /-- `GetLatestRevenue`: `some mrr` when `err == nil && snapshot != nil`. -/
  dbLatestMRR : Option ℚ
  /-- `calculateCurrentMRRWithRetry`: `some mrr` when `err == nil`. -/
  freshMRR : Option ℚ
  /-- `BUSINESS_CAC` environment value, when present and parseable. -/
  cacEnv : Option ℚ
deriving DecidableEq, Repr

/-- The fallback ladder inside the LTV block: a fresh MRR calculation is
used when positive, otherwise the hard-coded conservative default `29.0`. -/
def freshOr29 (freshMRR : Option ℚ) (active : Int) : ℚ :=
  match freshMRR with
  | some c => if c > 0 then c / (active : ℚ) else 29
  | none => 29

/-- The average revenue per active customer used for LTV
(`widget-customers.go:135-173`): prefer the latest stored MRR snapshot when
the database is available and the value is positive, else fall back to a
fresh calculation, else to the default `29.0`. -/
def avgRevenuePerCustomer (f : CustomerFetchResults) (active : Int) : ℚ :=
  if f.dbAvailable then
    match f.dbLatestMRR with
    | some mrr =>
        if mrr > 0 then mrr / (active : ℚ) else freshOr29 f.freshMRR active
    | none => freshOr29 f.freshMRR active
  else freshOr29 f.freshMRR active

/-- Assign the four fetched counts (lines 97-125). -/
def applyFetches (w : CustomersWidgetState) (f : CustomerFetchResults) :
    CustomersWidgetState :=
  let w := { w with TotalCustomers := f.totalCustomers }
  let w := match f.activeCustomers with
    | some a => { w with ActiveCustomers := a }
    | none => w
  let w := match f.newCustomers with
    | some n => { w with NewCustomers := n }
    | none => w
  match f.churnedCustomers with
  | some c => { w with ChurnedCustomers := c }
  | none => w

/-- `if w.TotalCustomers > 0 { w.ChurnRate = churned/total*100 }` (128-130). -/
def applyChurnRate (w : CustomersWidgetState) : CustomersWidgetState :=
  if w.TotalCustomers > 0 then
    { w with ChurnRate :=
        (w.ChurnedCustomers : ℚ) / (w.TotalCustomers : ℚ) * 100 }
  else w

/-- The LTV block (134-179): only entered with positive active count and
positive churn rate; divides the average revenue by the monthly churn
rate. -/
def applyLTV (w : CustomersWidgetState) (f : CustomerFetchResults) :
    CustomersWidgetState :=
  if w.ActiveCustomers > 0 ∧ w.ChurnRate > 0 then
    if w.ChurnRate / 100 > 0 then
      { w with LTV := avgRevenuePerCustomer f w.ActiveCustomers / (w.ChurnRate / 100) }
    else w
  else w

/-- The `BUSINESS_CAC` override (183-190). -/
def applyCAC (w : CustomersWidgetState) (f : CustomerFetchResults) :
    CustomersWidgetState :=
  match f.cacEnv with
  | some c => { w with CAC := c }
  | none => w

/-- `if w.CAC > 0 { w.LTVtoCAC = w.LTV / w.CAC }` (194-196). -/
def applyLTVtoCAC (w : CustomersWidgetState) : CustomersWidgetState :=
  if w.CAC > 0 then { w with LTVtoCAC := w.LTV / w.CAC } else w

/-- Embeds the metric-derivation tail of `customersWidget.update`. -/
def updateCustomerMetrics (w : CustomersWidgetState) (f : CustomerFetchResults) :
    CustomersWidgetState :=
  applyLTVtoCAC (applyCAC (applyLTV (applyChurnRate (applyFetches w f)) f) f)

/-- C5 counterexample input: 100 customers, 1 active, 5 churned this month,
no database, and a fresh MRR calculation returning 0 (one active customer
on a free subscription). -/
def c5Fetch : CustomerFetchResults :=
  { totalCustomers := 100
    activeCustomers := some 1
    newCustomers := some 0
    churnedCustomers := some 5
    dbAvailable := false
    dbLatestMRR := none
    freshMRR := some 0
    cacEnv := none }

/-- C5 witness input: 100 customers, 10 active, 5 churned, database
available with latest MRR 290, operator CAC 50. -/
def c5WitnessFetch : CustomerFetchResults :=
  { totalCustomers := 100
    activeCustomers := some 10
    newCustomers := some 2
    churnedCustomers := some 5
    dbAvailable := true
    dbLatestMRR := some 290
    freshMRR := none
    cacEnv := some 50 }

/-- C5 witness input for the fresh-calculation MRR source: the database is
available but its latest snapshot has MRR 0, so the positive fresh
calculation (150) is used. -/
def c5FreshFetch : CustomerFetchResults :=
  { totalCustomers := 100
    activeCustomers := some 10
    newCustomers := some 2
    churnedCustomers := some 5
    dbAvailable := true
    dbLatestMRR := some 0
    freshMRR := some 150
    cacEnv := none }

/-- C5 witness input for the reachable 29.0 fallback: the database is
available but holds no snapshot, and the fresh calculation returns 0. -/
def c5Fallback29Fetch : CustomerFetchResults :=
  { totalCustomers := 100
    activeCustomers := some 1
    newCustomers := some 0
    churnedCustomers := some 5
    dbAvailable := true
    dbLatestMRR := none
    freshMRR := some 0
    cacEnv := none }

/-! ## Webhook dispatcher (`webhook.go` handlers, `src/unnamed/part_002`)

`HandleWebhook` answers the HTTP request synchronously and spawns
`processEvent` asynchronously only after successful signature verification.
`webhook.ConstructEvent` (Stripe SDK) is abstracted as a `verify` parameter
mapping (payload, signature header, secret) to the parsed event on success.
The synchronous handler never touches the event log; the spawned event is
returned explicitly so frame effects are visible. -/

structure StripeEvent where
  id : String
  /-- the Stripe event type string -/
  type : String
  livemode : Bool
deriving DecidableEq, Repr

/-- The Go `WebhookEvent` log record (field `Type` renamed `type`, a Lean
keyword). -/
structure WebhookEvent where
  ID : String
  type : String
  Processed : Int
  Success : Bool
  Error : String
deriving DecidableEq, Repr

structure WebhookRequest where
  method : String
  /-- `io.ReadAll(r.Body)`: `none` models a read error. -/
  body : Option (List Char)
  /-- the `Stripe-Signature` header -/
  signature : String
deriving Repr

inductive WebhookResponse where
  | errorResp (status : Nat) (msg : String)
  | jsonResp (status : Nat) (received : Bool) (eventId : String)
deriving DecidableEq, Repr

/-- A registered event handler: returns `some msg` on error. -/
def EventHandlerFunc : Type := StripeEvent → Option String

/-- Embeds `WebhookHandler.HandleWebhook`: returns the (unchanged) event
log, the HTTP response, and the event spawned for asynchronous processing
(if any). -/
def HandleWebhook (verify : List Char → String → String → Option StripeEvent)
    (secret : String) (eventLog : List WebhookEvent) (req : WebhookRequest) :
    List WebhookEvent × WebhookResponse × Option StripeEvent :=
  if req.method ≠ "POST" then
    (eventLog, .errorResp 405 "Method not allowed", none)
  else
    match req.body with
    | none => (eventLog, .errorResp 400 "Failed to read request body", none)
    | some payload =>
        match verify payload req.signature secret with
        | none => (eventLog, .errorResp 401 "Invalid signature", none)
        | some event => (eventLog, .jsonResp 200 true event.id, some event)

/-- Embeds `WebhookHandler.logEvent`: append and keep the last
`maxEventLog` records — the same append-and-truncate tail as the snapshot
store's save methods. -/
def logEvent (eventLog : List WebhookEvent) (maxEventLog : Nat)
    (event : WebhookEvent) : List WebhookEvent :=
  truncLast maxEventLog (eventLog ++ [event])

/-- Embeds `WebhookHandler.invalidateCachesForEvent`: which widget cache
the invalidator is asked to drop for an event type (`none` = no call). -/
def invalidateCachesForEvent (eventType : String) : Option String :=
  if eventType = "customer.subscription.created" ∨
     eventType = "customer.subscription.updated" ∨
     eventType = "customer.subscription.deleted" ∨
     eventType = "invoice.payment_succeeded" ∨
     eventType = "invoice.payment_failed" then
    some "revenue"
  else if eventType = "customer.created" ∨
     eventType = "customer.deleted" ∨
     eventType = "customer.updated" then
    some "customers"
  else
    none

/-- Embeds `WebhookHandler.processEvent`: with no handler registered for
the event type it returns before invalidation and before logging; otherwise
it runs the handlers (collecting errors: `Success` is cleared by any error
and `Error` keeps the last one), asks the invalidator (when present) per
`invalidateCachesForEvent`, and appends to the bounded event log.  Returns
the new log and the invalidated cache, if any. -/
def processEvent (handlers : String → List EventHandlerFunc)
    (hasInvalidator : Bool) (now : Int) (eventLog : List WebhookEvent)
    (maxEventLog : Nat) (event : StripeEvent) :
    List WebhookEvent × Option String :=
  let hs := handlers event.type
  if hs.isEmpty then
    (eventLog, none)
  else
    let errs := (hs.map fun h => h event).reduceOption
    let record : WebhookEvent :=
      { ID := event.id
        type := event.type
        Processed := now
        Success := errs.isEmpty
        Error := errs.getLastD "" }
    let invalidated :=
      if hasInvalidator then invalidateCachesForEvent event.type else none
    (logEvent eventLog maxEventLog record, invalidated)

/-- Embeds `WebhookHandler.RegisterHandler` on the handler map. -/
def RegisterHandler (m : String → List EventHandlerFunc)
    (eventType : String) (h : EventHandlerFunc) :
    String → List EventHandlerFunc :=
  fun t => if t = eventType then m t ++ [h] else m t

/-- The registrations performed by `GetWebhookHandler`: exactly seven event
types get a handler; `customer.updated` is not among them. -/
def defaultHandlers
    (hSubCreated hSubUpdated hSubDeleted hCustCreated hCustDeleted
      hInvoiceSucceeded hInvoiceFailed : EventHandlerFunc) :
    String → List EventHandlerFunc :=
  RegisterHandler (RegisterHandler (RegisterHandler (RegisterHandler
    (RegisterHandler (RegisterHandler (RegisterHandler (fun _ => [])
      "customer.subscription.created" hSubCreated)
      "customer.subscription.updated" hSubUpdated)
      "customer.subscription.deleted" hSubDeleted)
      "customer.created" hCustCreated)
      "customer.deleted" hCustDeleted)
      "invoice.payment_succeeded" hInvoiceSucceeded)
      "invoice.payment_failed" hInvoiceFailed

/-- A concrete verifier for witnesses: accepts exactly the signature
`"valid"`, producing a fixed event. -/
def demoVerify : List Char → String → String → Option StripeEvent :=
  fun _ sig _ =>
    if sig = "valid" then some ⟨"evt_1", "customer.created", true⟩ else none

/-! ## Secret store (`internal/glance/encryption.go`)

`Encrypt` seals the plaintext with AES-256-GCM under a fresh 12-byte nonce
and base64-encodes `nonce ‖ ciphertext`; `Decrypt` base64-decodes, splits
off the 12-byte nonce and opens the ciphertext.  The AES-GCM core is
abstracted as a `seal`/`opn` parameter pair (nonce randomness and the
memoization cache, which is semantically the identity, are elided), while
the base64 framing is modelled concretely after Go's
`encoding/base64.StdEncoding` (padded alphabet, quanta of four characters,
`\r`/`\n` ignored, anything else malformed).  Bytes are `Nat` (< 256 in
range), Go strings are `List Char`. -/

def b64Alphabet : List Char :=
  "ABCDEFGHIJKLMNOPQRSTUVWXYZabcdefghijklmnopqrstuvwxyz0123456789+/".toList

def b64Char (n : Nat) : Char := b64Alphabet.getD n 'A'

def b64Val (c : Char) : Option Nat :=
  let i := b64Alphabet.indexOf c
  if i < 64 then some i else none

/-- Go `base64.StdEncoding` encoding: three bytes per four characters,
padded with `=`. -/
def base64encode : List Nat → List Char
  | [] => []
  | [b0] =>
      [b64Char (b0 / 4), b64Char (b0 % 4 * 16), '=', '=']
  | [b0, b1] =>
      [b64Char (b0 / 4), b64Char (b0 % 4 * 16 + b1 / 16),
       b64Char (b1 % 16 * 4), '=']
  | b0 :: b1 :: b2 :: rest =>
      b64Char (b0 / 4) :: b64Char (b0 % 4 * 16 + b1 / 16) ::
      b64Char (b1 % 16 * 4 + b2 / 64) :: b64Char (b2 % 64) :: base64encode rest

/-- One-quantum-at-a-time decoding of padded base64: a leftover of one to
three characters, an invalid character, or padding anywhere but the final
quantum is malformed input (`none`). -/
def base64decodeQuanta : List Char → Option (List Nat)
  | [] => some []
  | c0 :: c1 :: c2 :: c3 :: rest =>
      match b64Val c0, b64Val c1 with
      | some v0, some v1 =>
          if c2 = '=' then
            if c3 = '=' ∧ rest = [] then some [v0 * 4 + v1 / 16] else none
          else
            match b64Val c2 with
            | some v2 =>
                if c3 = '=' then
                  if rest = [] then
                    some [v0 * 4 + v1 / 16, v1 % 16 * 16 + v2 / 4]
                  else none
                else
                  match b64Val c3 with
                  | some v3 =>
                      match base64decodeQuanta rest with
                      | some bs =>
                          some ((v0 * 4 + v1 / 16) :: (v1 % 16 * 16 + v2 / 4) ::
                                (v2 % 4 * 64 + v3) :: bs)
                      | none => none
                  | none => none
            | none => none
      | _, _ => none
  | _ => none

/-- Go `base64.StdEncoding.DecodeString`: newline characters are ignored,
then the input is decoded in quanta of four. -/
def base64decode (cs : List Char) : Option (List Nat) :=
  base64decodeQuanta (cs.filter fun c => ¬(c = '\r' ∨ c = '\n'))

/-- Embeds `EncryptionService.Encrypt` with the GCM `Seal` abstracted as
`seal` and the random nonce as a parameter:
`base64(nonce ‖ gcm.Seal(nonce, plaintext))`, empty in on empty out. -/
def Encrypt (sealFn : List Nat → List Char → List Nat) (nonce : List Nat)
    (v : List Char) : List Char :=
  if v = [] then [] else base64encode (nonce ++ sealFn nonce v)

/-- Embeds `EncryptionService.Decrypt` with the GCM `Open` abstracted as
`opn`: base64-decode, require at least the 12-byte GCM nonce, split, open. -/
def Decrypt (opn : List Nat → List Nat → Option (List Char))
    (ct : List Char) : Except String (List Char) :=
  if ct = [] then .ok []
  else
    match base64decode ct with
    | none => .error "failed to decode base64"
    | some data =>
        if data.length < 12 then .error "ciphertext too short"
        else
          match opn (data.take 12) (data.drop 12) with
          | some pt => .ok pt
          | none => .error "failed to decrypt"

def encPrefix : List Char := "encrypted:".toList

/-- Embeds `EncryptionService.EncryptIfNeeded`: values of length > 10
starting with `encrypted:` pass through; everything else (empty aside) is
encrypted and prefixed. -/
def EncryptIfNeeded (sealFn : List Nat → List Char → List Nat)
    (nonce : List Nat) (v : List Char) : List Char :=
  if v = [] then []
  else if 10 < v.length ∧ v.take 10 = encPrefix then v
  else encPrefix ++ Encrypt sealFn nonce v

/-- Embeds `EncryptionService.DecryptIfNeeded`: values of length > 10
starting with `encrypted:` are decrypted after stripping the prefix;
everything else is returned as-is. -/
def DecryptIfNeeded (opn : List Nat → List Nat → Option (List Char))
    (v : List Char) : Except String (List Char) :=
  if v = [] then .ok []
  else if 10 < v.length ∧ v.take 10 = encPrefix then Decrypt opn (v.drop 10)
  else .ok v

/-- A toy cipher instance for concrete evaluation: bytes of the plaintext. -/
def seal0 : List Nat → List Char → List Nat := fun _ s => s.map Char.toNat

/-- Inverse of `seal0`. -/
def opn0 : List Nat → List Nat → Option (List Char) :=
  fun _ bs => some (bs.map Char.ofNat)

def nonce0 : List Nat := List.replicate 12 0

/-! # Part 2: Theorems -/

/-! ## C1: monthly-revenue normalization -/

theorem itemMonthlyAmount_eq_specPerMonth (item : SubscriptionItem)
    (h : ∀ p ∈ item.price, 1 ≤ p.intervalCount) :
    itemMonthlyAmount item = specPerMonth item := by
  rcases item with ⟨price, quantity⟩
  cases price with
  | none => rfl
  | some p =>
    rcases p with ⟨amt, iv, ic⟩
    have h1 : 1 ≤ ic := h _ rfl
    have hic : (ic : ℚ) ≠ 0 := by
      have h0 : ic ≠ 0 := by omega
      exact_mod_cast h0
    simp only [itemMonthlyAmount, specPerMonth, specK]
    by_cases hm : iv = "month"
    · subst hm
      rw [if_pos rfl, if_neg (by decide), if_neg (by decide), if_pos rfl]
      field_simp
      try ring
      try simp
    · by_cases hy : iv = "year"
      · subst hy
        rw [if_neg (by decide), if_pos rfl, if_neg (by decide),
          if_neg (by decide), if_neg (by decide), if_pos rfl]
        field_simp
        try ring
        try simp
      · by_cases hw : iv = "week"
        · subst hw
          rw [if_neg (by decide), if_neg (by decide), if_pos rfl,
            if_neg (by decide), if_pos rfl]
          field_simp
          try ring
          try simp
        · by_cases hd : iv = "day"
          · subst hd
            rw [if_neg (by decide), if_neg (by decide), if_neg (by decide),
              if_pos rfl, if_pos rfl]
            field_simp
            try ring
            try simp
          · rw [if_neg hm, if_neg hy, if_neg hw, if_neg hd, if_neg hd,
              if_neg hw, if_neg hm, if_neg hy]
            simp

theorem calculateMRR_eq_specMRR (subs : List Subscription)
    (h : ∀ s ∈ subs, ∀ i ∈ s.items, ∀ p ∈ i.price, 1 ≤ p.intervalCount) :
    calculateMRR subs = specMRR subs := by
  unfold calculateMRR specMRR
  induction subs with
  | nil => simp
  | cons s rest ih =>
    simp only [List.map_cons, List.join_cons, List.map_append, List.sum_append,
      List.sum_cons]
    have hs : (s.items.map itemMonthlyAmount).sum = (s.items.map specPerMonth).sum := by
      have : s.items.map itemMonthlyAmount = s.items.map specPerMonth := by
        apply List.map_congr_left
        intro i hi
        exact itemMonthlyAmount_eq_specPerMonth i (h s (by simp) i hi)
      rw [this]
    rw [hs, ih (fun s hs => h s (by simp [hs]))]

/-- C1: on any list of (active) subscriptions whose items have
`intervalCount ≥ 1` and `quantity ≥ 1`, `calculateMRR` computes exactly the
spec's `Σ (amount/100) * quantity * K(interval) / intervalCount` with
`K(day)=30, K(week)=4.33, K(month)=1, K(year)=1/12` and unknown intervals
contributing nothing; `update` stores `ARR = 12 × MRR`; and the empty list
yields `MRR = 0` and `ARR = 0`. -/
theorem calculateMRR_matches_spec (subs : List Subscription)
    (w : RevenueWidgetState)
    (h : ∀ s ∈ subs, ∀ i ∈ s.items, ∀ p ∈ i.price,
      1 ≤ p.intervalCount ∧ 1 ≤ i.quantity) :
    calculateMRR subs = specMRR subs ∧
    (setMRRFields w (calculateMRR subs)).arr = 12 * calculateMRR subs ∧
    calculateMRR [] = 0 ∧
    (setMRRFields w (calculateMRR [])).arr = 0 := by
  refine ⟨?_, ?_, ?_, ?_⟩
  · exact calculateMRR_eq_specMRR subs
      (fun s hs i hi p hp => (h s hs i hi p hp).1)
  · simp [setMRRFields, mul_comm]
  · simp [calculateMRR]
  · simp [setMRRFields, calculateMRR]

/-- Witness for `calculateMRR_matches_spec` at the spec's worked example. -/
theorem calculateMRR_matches_spec_witness :
    (∀ s ∈ demoSubs, ∀ i ∈ s.items, ∀ p ∈ i.price,
      1 ≤ p.intervalCount ∧ 1 ≤ i.quantity) ∧
    (calculateMRR demoSubs = specMRR demoSubs ∧
     (setMRRFields ⟨0, 0⟩ (calculateMRR demoSubs)).arr = 12 * calculateMRR demoSubs ∧
     calculateMRR [] = 0 ∧
     (setMRRFields ⟨0, 0⟩ (calculateMRR [])).arr = 0) :=
  ⟨by decide, calculateMRR_matches_spec demoSubs ⟨0, 0⟩ (by decide)⟩

/-! ## C2, C3: circuit-breaker half-open behaviour -/

/-- C2: the spec says a single failure in Half-Open reopens the breaker, and
the repository's own documentation agrees ("Failure reopens circuit"), but
the code resets the failure counter on the Open → Half-Open transition and
`RecordFailure` only opens at `failures ≥ maxFailures`: at the reachable
half-open state (obtained from an open breaker after the reset timeout) one
recorded failure leaves the breaker Half-Open with one failure, not Open.
`RecordSuccess` does close it, as both spec and code agree. -/
theorem halfOpen_single_failure_does_not_open :
    canExecute 61 cbOpenAt0 = (true, cbHalf) ∧
    recordFailure 62 cbHalf =
      { maxFailures := 5, resetTimeout := 60, failures := 1,
        lastFailTime := 62, state := CircuitHalfOpen } ∧
    (recordFailure 62 cbHalf).state ≠ CircuitOpen ∧
    (recordSuccess cbHalf).state = CircuitClosed := by
  refine ⟨rfl, rfl, ?_, rfl⟩
  decide

/-- C3 counterexample: two successive `CanExecute` calls on a half-open
breaker, with no success or failure recorded in between, both grant
permission — refuting "exactly one caller is permitted". -/
theorem halfOpen_two_canExecute_both_grant :
    (canExecute 61 cbHalf).1 = true ∧
    (canExecute 62 (canExecute 61 cbHalf).2).1 = true := by
  decide

/-- C3 amended: while the breaker is Half-Open, `CanExecute` grants
permission to every caller and leaves the breaker unchanged; the code has no
single-trial gate, so any number of `CanExecute` queries in Half-Open all
return `true` until a success or failure is recorded. -/
theorem halfOpen_canExecute_always_grants (now : Int) (cb : CircuitBreaker)
    (h : cb.state = CircuitHalfOpen) :
    canExecute now cb = (true, cb) := by
  unfold canExecute
  rw [h]

/-- Witness for `halfOpen_canExecute_always_grants` at the concrete
half-open breaker `cbHalf`. -/
theorem halfOpen_canExecute_always_grants_witness :
    canExecute 61 cbHalf = (true, cbHalf) :=
  halfOpen_canExecute_always_grants 61 cbHalf rfl

/-! ## C9: `GetClient` partiality and cache-key collision -/

/-- C9: (1) `GetClient` faults on any non-empty key shorter than 12 bytes —
`apiKey[:12]` is an out-of-range slice, not a returned error; (2) two
distinct keys agreeing on their first 12 bytes and sharing a mode collide on
the cache key, so the second `GetClient` call returns the wrapper created
for the first key: the second caller receives a client initialised with the
first caller's credential. -/
theorem getClient_partiality_and_collision :
    (∀ (pool : ClientPool) (apiKey mode : List Char) (now : Int),
      apiKey ≠ [] → apiKey.length < 12 →
      getClient pool apiKey mode now = .panic) ∧
    (∀ (k1 k2 mode : List Char) (now1 now2 : Int),
      12 ≤ k1.length → k1 ≠ k2 → k1.take 12 = k2.take 12 →
      ∀ (w1 : StripeClientWrapper) (pool1 : ClientPool),
      getClient [] k1 mode now1 = .ok (w1, pool1) →
      ∀ (w2 : StripeClientWrapper) (pool2 : ClientPool),
      getClient pool1 k2 mode now2 = .ok (w2, pool2) →
      w1.apiKey = k1 ∧ w2 = { w1 with lastUsed := now2 } ∧ w2.apiKey ≠ k2) := by
  constructor
  · intro pool apiKey mode now hne hlt
    unfold getClient
    rw [if_neg hne, if_pos hlt]
  · intro k1 k2 mode now1 now2 h1 hne hpre w1 pool1 hc1 w2 pool2 hc2
    have hk1ne : k1 ≠ [] := by
      intro h
      rw [h] at h1
      simp at h1
    have hk2len : 12 ≤ k2.length := by
      have := congrArg List.length hpre
      simp [List.length_take] at this
      omega
    have hk2ne : k2 ≠ [] := by
      intro h
      rw [h] at hk2len
      simp at hk2len
    unfold getClient at hc1 hc2
    rw [if_neg hk1ne, if_neg (by omega)] at hc1
    rw [if_neg hk2ne, if_neg (by omega)] at hc2
    simp only [poolLoad, List.find?] at hc1
    -- the first call creates a fresh wrapper for k1
    cases hc1
    -- the second call hits the cache entry stored under the shared prefix key
    rw [← hpre] at hc2
    simp only [poolLoad, poolStore, List.filter_nil, List.find?_cons_of_pos,
      decide_eq_true_eq] at hc2
    cases hc2
    refine ⟨rfl, rfl, ?_⟩
    simpa using hne

/-- Witness for `getClient_partiality_and_collision`: the 5-byte key
`"short"` faults, and two 16-byte live-mode keys sharing the 12-byte prefix
`"sk_live_0000"` collide. -/
theorem getClient_partiality_and_collision_witness :
    getClient [] "short".toList "live".toList 0 = .panic ∧
    ∃ w1 pool1 w2 pool2,
      getClient [] "sk_live_0000AAAA".toList "live".toList 1 = .ok (w1, pool1) ∧
      getClient pool1 "sk_live_0000BBBB".toList "live".toList 2 = .ok (w2, pool2) ∧
      w1.apiKey = "sk_live_0000AAAA".toList ∧
      w2 = { w1 with lastUsed := 2 } ∧
      w2.apiKey ≠ "sk_live_0000BBBB".toList := by
  constructor
  · exact getClient_partiality_and_collision.1 [] "short".toList "live".toList 0
      (by decide) (by decide)
  · refine ⟨_, _, _, _, rfl, rfl, ?_⟩
    exact getClient_partiality_and_collision.2
      "sk_live_0000AAAA".toList "sk_live_0000BBBB".toList "live".toList 1 2
      (by decide) (by decide) (by decide) _ _ rfl _ _ rfl

/-! ## C6: snapshot store is bounded FIFO -/

theorem truncLast_eq_drop (n : Nat) (l : List α) :
    truncLast n l = l.drop (l.length - n) := by
  unfold truncLast
  split
  · rfl
  · rename_i h
    rw [Nat.sub_eq_zero_of_le (by omega), List.drop_zero]

theorem drop_append_single (l : List α) (x : α) (i : Nat) (h : i ≤ l.length) :
    (l ++ [x]).drop i = l.drop i ++ [x] := by
  rw [List.drop_append_eq_append_drop, Nat.sub_eq_zero_of_le h, List.drop_zero]

theorem truncLast_step (n : Nat) (seq : List α) (x : α) :
    truncLast n (seq.drop (seq.length - n) ++ [x]) =
      (seq ++ [x]).drop (seq.length + 1 - n) := by
  rcases le_or_lt n seq.length with h | h
  · have hD : (seq.drop (seq.length - n)).length = n := by
      rw [List.length_drop]
      omega
    rw [truncLast_eq_drop, List.length_append, hD]
    simp only [List.length_cons, List.length_nil]
    have h1 : n + 1 - n = 1 := by omega
    rw [h1]
    rcases Nat.eq_zero_or_pos n with hn | hn
    · subst hn
      simp [List.drop_eq_nil_of_le, Nat.le_add_right]
    · rw [drop_append_single _ _ 1 (by omega),
        drop_append_single _ _ (seq.length + 1 - n) (by omega),
        List.drop_drop]
      congr 2
      omega
  · have h0 : seq.length - n = 0 := by omega
    have h1 : seq.length + 1 - n = 0 := by omega
    rw [h0, h1, List.drop_zero, List.drop_zero, truncLast_eq_drop]
    rw [List.length_append]
    simp only [List.length_cons, List.length_nil]
    rw [Nat.sub_eq_zero_of_le (by omega), List.drop_zero]

theorem foldl_truncLast (n : Nat) (seq : List α) :
    seq.foldl (fun l x => truncLast n (l ++ [x])) [] =
      seq.drop (seq.length - n) := by
  induction seq using List.reverseRecOn with
  | nil => simp [truncLast]
  | append_singleton seq x ih =>
      rw [List.foldl_append, List.foldl_cons, List.foldl_nil, ih,
        truncLast_step]
      congr 1
      simp

theorem runSaves_rev_proj (ops : List SaveOp) (m : String) :
    ∀ db : SimpleMetricsDB,
      (runSaves db ops).revenueHistory m =
        (revSeq ops m).foldl
          (fun l s => truncLast db.maxHistory (l ++ [s])) (db.revenueHistory m) ∧
      (runSaves db ops).maxHistory = db.maxHistory := by
  induction ops with
  | nil => intro db; exact ⟨rfl, rfl⟩
  | cons op ops ih =>
    intro db
    rcases op with s | s
    · -- a revenue save
      rcases ih (applySave db (.rev s)) with ⟨ih1, ih2⟩
      constructor
      · rw [runSaves, List.foldl_cons, ← runSaves, ih1]
        by_cases hm : m = s.Mode
        · subst hm
          simp [revSeq, applySave, SaveRevenueSnapshot]
        · simp [revSeq, applySave, SaveRevenueSnapshot, hm]
      · rw [runSaves, List.foldl_cons, ← runSaves, ih2]
        rfl
    · -- a customer save leaves the revenue map untouched
      rcases ih (applySave db (.cust s)) with ⟨ih1, ih2⟩
      constructor
      · rw [runSaves, List.foldl_cons, ← runSaves, ih1]
        simp [revSeq, applySave, SaveCustomerSnapshot]
      · rw [runSaves, List.foldl_cons, ← runSaves, ih2]
        rfl

theorem runSaves_cust_proj (ops : List SaveOp) (m : String) :
    ∀ db : SimpleMetricsDB,
      (runSaves db ops).customerHistory m =
        (custSeq ops m).foldl
          (fun l s => truncLast db.maxHistory (l ++ [s])) (db.customerHistory m) := by
  induction ops with
  | nil => intro db; rfl
  | cons op ops ih =>
    intro db
    rcases op with s | s
    · rw [runSaves, List.foldl_cons, ← runSaves, ih]
      simp [custSeq, applySave, SaveRevenueSnapshot]
    · rw [runSaves, List.foldl_cons, ← runSaves, ih]
      by_cases hm : m = s.Mode
      · subst hm
        simp [custSeq, applySave, SaveCustomerSnapshot]
      · simp [custSeq, applySave, SaveCustomerSnapshot, hm]

theorem pairwise_filterMap_le {α β : Type} (ts : α → Int) (ts2 : β → Int)
    (f : α → Option β) (hf : ∀ a, ∀ x ∈ f a, ts2 x = ts a)
    (l : List α) (hl : l.Pairwise (fun a b => ts a ≤ ts b)) :
    (l.filterMap f).Pairwise (fun a b => ts2 a ≤ ts2 b) := by
  induction l with
  | nil => simp
  | cons a l ih =>
    rw [List.filterMap_cons]
    rcases hl with _ | ⟨ha, hl⟩
    cases hfa : f a with
    | none => exact ih hl
    | some x =>
      refine List.Pairwise.cons ?_ (ih hl)
      intro y hy
      rcases List.mem_filterMap.mp hy with ⟨b, hb, hfb⟩
      rw [hf a x (by simp [hfa]), hf b y (by simp [hfb])]
      exact ha b hb

/-- C6: after any sequence of saves with non-decreasing timestamps, each
per-(kind, mode) history of the store is exactly the most recent
`min(count, 100)` snapshots saved under that key (oldest evicted first),
hence in non-decreasing timestamp order and never longer than 100. -/
theorem snapshotStore_bounded_fifo (ops : List SaveOp) (m : String)
    (hmono : ops.Pairwise (fun a b => a.timestamp ≤ b.timestamp)) :
    (runSaves getSimpleMetricsDB ops).revenueHistory m =
      (revSeq ops m).drop ((revSeq ops m).length - 100) ∧
    ((runSaves getSimpleMetricsDB ops).revenueHistory m).Pairwise
      (fun a b => a.Timestamp ≤ b.Timestamp) ∧
    ((runSaves getSimpleMetricsDB ops).revenueHistory m).length ≤ 100 ∧
    (runSaves getSimpleMetricsDB ops).customerHistory m =
      (custSeq ops m).drop ((custSeq ops m).length - 100) ∧
    ((runSaves getSimpleMetricsDB ops).customerHistory m).Pairwise
      (fun a b => a.Timestamp ≤ b.Timestamp) ∧
    ((runSaves getSimpleMetricsDB ops).customerHistory m).length ≤ 100 := by
  have hrev : (runSaves getSimpleMetricsDB ops).revenueHistory m =
      (revSeq ops m).drop ((revSeq ops m).length - 100) := by
    rw [(runSaves_rev_proj ops m getSimpleMetricsDB).1]
    exact foldl_truncLast 100 (revSeq ops m)
  have hcust : (runSaves getSimpleMetricsDB ops).customerHistory m =
      (custSeq ops m).drop ((custSeq ops m).length - 100) := by
    rw [runSaves_cust_proj ops m getSimpleMetricsDB]
    exact foldl_truncLast 100 (custSeq ops m)
  have hrevMono : (revSeq ops m).Pairwise (fun a b => a.Timestamp ≤ b.Timestamp) := by
    unfold revSeq
    refine pairwise_filterMap_le SaveOp.timestamp RevenueSnapshot.Timestamp _
      ?_ ops hmono
    intro a x hx
    rcases a with s | s
    · simp only [Option.mem_def] at hx
      split at hx
      · cases hx; rfl
      · cases hx
    · cases hx
  have hcustMono : (custSeq ops m).Pairwise (fun a b => a.Timestamp ≤ b.Timestamp) := by
    unfold custSeq
    refine pairwise_filterMap_le SaveOp.timestamp CustomerSnapshot.Timestamp _
      ?_ ops hmono
    intro a x hx
    rcases a with s | s
    · cases hx
    · simp only [Option.mem_def] at hx
      split at hx
      · cases hx; rfl
      · cases hx
  refine ⟨hrev, ?_, ?_, hcust, ?_, ?_⟩
  · rw [hrev]
    exact hrevMono.sublist (List.drop_sublist _ _)
  · rw [hrev, List.length_drop]
    omega
  · rw [hcust]
    exact hcustMono.sublist (List.drop_sublist _ _)
  · rw [hcust, List.length_drop]
    omega

/-- A short monotone save sequence mixing both kinds. -/
def demoOps : List SaveOp :=
  [.rev (revSnapAt 1 "live"), .cust (custSnapAt 2 "live"),
   .rev (revSnapAt 3 "live"), .rev (revSnapAt 3 "test")]

/-- Witness for `snapshotStore_bounded_fifo` at a concrete monotone
sequence of four saves. -/
theorem snapshotStore_bounded_fifo_witness :
    demoOps.Pairwise (fun a b => a.timestamp ≤ b.timestamp) ∧
    ((runSaves getSimpleMetricsDB demoOps).revenueHistory "live" =
      (revSeq demoOps "live").drop ((revSeq demoOps "live").length - 100) ∧
    ((runSaves getSimpleMetricsDB demoOps).revenueHistory "live").Pairwise
      (fun a b => a.Timestamp ≤ b.Timestamp) ∧
    ((runSaves getSimpleMetricsDB demoOps).revenueHistory "live").length ≤ 100 ∧
    (runSaves getSimpleMetricsDB demoOps).customerHistory "live" =
      (custSeq demoOps "live").drop ((custSeq demoOps "live").length - 100) ∧
    ((runSaves getSimpleMetricsDB demoOps).customerHistory "live").Pairwise
      (fun a b => a.Timestamp ≤ b.Timestamp) ∧
    ((runSaves getSimpleMetricsDB demoOps).customerHistory "live").length ≤ 100) :=
  ⟨by decide, snapshotStore_bounded_fifo demoOps "live" (by decide)⟩

/-! ## C7: range query interval -/

/-- C7 counterexample: a record whose timestamp equals the upper bound `t1`
is returned by `GetRevenueHistory`, while the spec's half-open query would
exclude it — the store's range query is closed at both ends, not half-open. -/
theorem getRevenueHistory_includes_upper_bound :
    GetRevenueHistory dbWithSnapAt5 "live" 0 5 = [revSnapAt 5 "live"] ∧
    specRangeHalfOpen dbWithSnapAt5 "live" 0 5 = [] ∧
    GetRevenueHistory dbWithSnapAt5 "live" 0 5 ≠
      specRangeHalfOpen dbWithSnapAt5 "live" 0 5 := by
  refine ⟨rfl, rfl, ?_⟩
  rw [show GetRevenueHistory dbWithSnapAt5 "live" 0 5 = [revSnapAt 5 "live"] from rfl,
    show specRangeHalfOpen dbWithSnapAt5 "live" 0 5 = ([] : List RevenueSnapshot)
      from rfl]
  simp

/-- C7 amended: `GetRevenueHistory` returns exactly the records of the
(kind, mode) history whose timestamp lies in the closed interval
`[t0, t1]`: both a record at `t0` and a record at `t1` are included. -/
theorem getRevenueHistory_closed_interval (db : SimpleMetricsDB)
    (mode : String) (t0 t1 : Int) (s : RevenueSnapshot) :
    s ∈ GetRevenueHistory db mode t0 t1 ↔
      s ∈ db.revenueHistory mode ∧ t0 ≤ s.Timestamp ∧ s.Timestamp ≤ t1 := by
  simp only [GetRevenueHistory, List.mem_filter, decide_eq_true_eq]
  constructor
  · rintro ⟨hm, h⟩
    exact ⟨hm, by omega⟩
  · rintro ⟨hm, h⟩
    exact ⟨hm, by omega⟩

/-! ## C5: LTV, churn rate and LTV/CAC -/

theorem applyFetches_keeps (w : CustomersWidgetState) (f : CustomerFetchResults) :
    (applyFetches w f).TotalCustomers = f.totalCustomers ∧
    (applyFetches w f).ChurnRate = w.ChurnRate ∧
    (applyFetches w f).LTV = w.LTV ∧
    (applyFetches w f).CAC = w.CAC ∧
    (applyFetches w f).LTVtoCAC = w.LTVtoCAC := by
  unfold applyFetches
  cases f.activeCustomers <;> cases f.newCustomers <;>
    cases f.churnedCustomers <;> simp

theorem applyFetches_active (w : CustomersWidgetState) (f : CustomerFetchResults)
    (a : Int) (h : f.activeCustomers = some a) :
    (applyFetches w f).ActiveCustomers = a := by
  unfold applyFetches
  rw [h]
  cases f.newCustomers <;> cases f.churnedCustomers <;> simp

theorem applyFetches_churned (w : CustomersWidgetState) (f : CustomerFetchResults)
    (c : Int) (h : f.churnedCustomers = some c) :
    (applyFetches w f).ChurnedCustomers = c := by
  unfold applyFetches
  rw [h]

theorem applyChurnRate_keeps (w : CustomersWidgetState) :
    (applyChurnRate w).TotalCustomers = w.TotalCustomers ∧
    (applyChurnRate w).ChurnedCustomers = w.ChurnedCustomers ∧
    (applyChurnRate w).ActiveCustomers = w.ActiveCustomers ∧
    (applyChurnRate w).LTV = w.LTV ∧
    (applyChurnRate w).CAC = w.CAC ∧
    (applyChurnRate w).LTVtoCAC = w.LTVtoCAC := by
  unfold applyChurnRate
  split <;> simp

theorem applyChurnRate_pos (w : CustomersWidgetState)
    (h : 0 < w.TotalCustomers) :
    (applyChurnRate w).ChurnRate =
      (w.ChurnedCustomers : ℚ) / (w.TotalCustomers : ℚ) * 100 := by
  unfold applyChurnRate
  rw [if_pos h]

theorem applyLTV_keeps (w : CustomersWidgetState) (f : CustomerFetchResults) :
    (applyLTV w f).ChurnRate = w.ChurnRate ∧
    (applyLTV w f).ActiveCustomers = w.ActiveCustomers ∧
    (applyLTV w f).CAC = w.CAC ∧
    (applyLTV w f).LTVtoCAC = w.LTVtoCAC := by
  unfold applyLTV
  split
  · split <;> simp
  · simp

theorem applyLTV_pos (w : CustomersWidgetState) (f : CustomerFetchResults)
    (ha : 0 < w.ActiveCustomers) (hcr : 0 < w.ChurnRate) :
    (applyLTV w f).LTV =
      avgRevenuePerCustomer f w.ActiveCustomers / (w.ChurnRate / 100) := by
  unfold applyLTV
  rw [if_pos ⟨ha, hcr⟩, if_pos (by positivity)]

theorem applyLTV_zeroChurn (w : CustomersWidgetState) (f : CustomerFetchResults)
    (h : w.ChurnRate = 0) : applyLTV w f = w := by
  simp [applyLTV, h]

theorem applyCAC_keeps (w : CustomersWidgetState) (f : CustomerFetchResults) :
    (applyCAC w f).ChurnRate = w.ChurnRate ∧
    (applyCAC w f).LTV = w.LTV ∧
    (applyCAC w f).LTVtoCAC = w.LTVtoCAC ∧
    (applyCAC w f).ActiveCustomers = w.ActiveCustomers := by
  unfold applyCAC
  cases f.cacEnv <;> simp

theorem applyCAC_some (w : CustomersWidgetState) (f : CustomerFetchResults)
    (c : ℚ) (h : f.cacEnv = some c) : (applyCAC w f).CAC = c := by
  simp [applyCAC, h]

theorem applyCAC_none (w : CustomersWidgetState) (f : CustomerFetchResults)
    (h : f.cacEnv = none) : applyCAC w f = w := by
  simp [applyCAC, h]

theorem applyLTVtoCAC_keeps (w : CustomersWidgetState) :
    (applyLTVtoCAC w).LTV = w.LTV ∧
    (applyLTVtoCAC w).CAC = w.CAC ∧
    (applyLTVtoCAC w).ChurnRate = w.ChurnRate := by
  unfold applyLTVtoCAC
  split <;> simp

theorem applyLTVtoCAC_pos (w : CustomersWidgetState) (h : 0 < w.CAC) :
    (applyLTVtoCAC w).LTVtoCAC = w.LTV / w.CAC := by
  simp [applyLTVtoCAC, h]

theorem applyLTVtoCAC_nonpos (w : CustomersWidgetState) (h : ¬ 0 < w.CAC) :
    applyLTVtoCAC w = w := by
  simp [applyLTVtoCAC, h]

theorem avgRevenue_db (f : CustomerFetchResults) (active : Int) (m : ℚ)
    (hdb : f.dbAvailable = true) (hm : f.dbLatestMRR = some m) (hpos : 0 < m) :
    avgRevenuePerCustomer f active = m / (active : ℚ) := by
  simp [avgRevenuePerCustomer, hdb, hm, hpos]

theorem freshOr29_pos (freshMRR : Option ℚ) (active : Int) (mf : ℚ)
    (h : freshMRR = some mf) (hpos : 0 < mf) :
    freshOr29 freshMRR active = mf / (active : ℚ) := by
  simp [freshOr29, h, hpos]

theorem freshOr29_nonpos (freshMRR : Option ℚ) (active : Int)
    (h : ∀ c ∈ freshMRR, ¬ 0 < c) :
    freshOr29 freshMRR active = 29 := by
  cases hc : freshMRR with
  | none => rfl
  | some c =>
      have := h c (by simp [hc])
      simp [freshOr29, this]

/-- Whenever the latest stored snapshot is not used — the database is
unavailable, or the stored MRR is absent or non-positive — the average
revenue reduces to the fresh-calculation ladder `freshOr29`. -/
theorem avgRevenue_fallback (f : CustomerFetchResults) (active : Int)
    (h : f.dbAvailable = false ∨ (∀ m ∈ f.dbLatestMRR, ¬ 0 < m)) :
    avgRevenuePerCustomer f active = freshOr29 f.freshMRR active := by
  cases hb : f.dbAvailable with
  | false => simp [avgRevenuePerCustomer, hb]
  | true =>
      rcases h with h | h
      · rw [h] at hb
        exact absurd hb (by decide)
      · cases hm : f.dbLatestMRR with
        | none => simp [avgRevenuePerCustomer, hb, hm]
        | some m =>
            have hnp := h m (by simp [hm])
            simp [avgRevenuePerCustomer, hb, hm, hnp]

/-- C5 amended: when a positive MRR value is available,
`LTV = (MRR / ActiveCustomers) / (ChurnRate/100)` with
`ChurnRate = Churned/Total × 100` — the MRR source being the latest stored
revenue snapshot when the database is available and the stored value is
positive, and otherwise a fresh MRR calculation when that is positive;
when neither source yields a positive MRR the code substitutes the
hard-coded default average revenue `29.0`, so `LTV = 29 / (ChurnRate/100)`;
LTV keeps its previous value (zero on a fresh widget) when the churn rate
is zero; and on a fresh widget the LTV/CAC ratio is computed exactly when
the operator-supplied CAC is positive, and is zero otherwise. -/
theorem updateCustomerMetrics_ltv_spec :
    (∀ (w0 : CustomersWidgetState) (f : CustomerFetchResults) (a ch : Int) (m : ℚ),
      0 < f.totalCustomers → f.activeCustomers = some a → 0 < a →
      f.churnedCustomers = some ch → 0 < ch → f.dbAvailable = true →
      f.dbLatestMRR = some m → 0 < m →
      (updateCustomerMetrics w0 f).ChurnRate =
        (ch : ℚ) / (f.totalCustomers : ℚ) * 100 ∧
      (updateCustomerMetrics w0 f).LTV =
        (m / (a : ℚ)) / ((updateCustomerMetrics w0 f).ChurnRate / 100)) ∧
    (∀ (w0 : CustomersWidgetState) (f : CustomerFetchResults) (a ch : Int) (mf : ℚ),
      0 < f.totalCustomers → f.activeCustomers = some a → 0 < a →
      f.churnedCustomers = some ch → 0 < ch →
      (f.dbAvailable = false ∨ (∀ m ∈ f.dbLatestMRR, ¬ 0 < m)) →
      f.freshMRR = some mf → 0 < mf →
      (updateCustomerMetrics w0 f).LTV =
        (mf / (a : ℚ)) / ((updateCustomerMetrics w0 f).ChurnRate / 100)) ∧
    (∀ (w0 : CustomersWidgetState) (f : CustomerFetchResults) (a ch : Int),
      0 < f.totalCustomers → f.activeCustomers = some a → 0 < a →
      f.churnedCustomers = some ch → 0 < ch →
      (f.dbAvailable = false ∨ (∀ m ∈ f.dbLatestMRR, ¬ 0 < m)) →
      (∀ c ∈ f.freshMRR, ¬ 0 < c) →
      (updateCustomerMetrics w0 f).LTV =
        29 / ((updateCustomerMetrics w0 f).ChurnRate / 100)) ∧
    (∀ (w0 : CustomersWidgetState) (f : CustomerFetchResults),
      0 < f.totalCustomers → f.churnedCustomers = some 0 →
      (updateCustomerMetrics w0 f).LTV = w0.LTV) ∧
    (∀ (f : CustomerFetchResults) (c : ℚ),
      f.cacEnv = some c → 0 < c →
      (updateCustomerMetrics initCustomersWidget f).LTVtoCAC =
        (updateCustomerMetrics initCustomersWidget f).LTV / c) ∧
    (∀ f : CustomerFetchResults,
      (∀ c ∈ f.cacEnv, ¬ 0 < c) →
      (updateCustomerMetrics initCustomersWidget f).LTVtoCAC = 0) := by
  have hcr2 : ∀ (w0 : CustomersWidgetState) (f : CustomerFetchResults) (ch : Int),
      0 < f.totalCustomers → f.churnedCustomers = some ch →
      (applyChurnRate (applyFetches w0 f)).ChurnRate =
        (ch : ℚ) / (f.totalCustomers : ℚ) * 100 := by
    intro w0 f ch htot hch
    rw [applyChurnRate_pos _ (by rw [(applyFetches_keeps w0 f).1]; exact htot),
      applyFetches_churned w0 f ch hch, (applyFetches_keeps w0 f).1]
  have hresCR : ∀ (w0 : CustomersWidgetState) (f : CustomerFetchResults),
      (updateCustomerMetrics w0 f).ChurnRate =
        (applyChurnRate (applyFetches w0 f)).ChurnRate := by
    intro w0 f
    unfold updateCustomerMetrics
    rw [(applyLTVtoCAC_keeps _).2.2, (applyCAC_keeps _ _).1, (applyLTV_keeps _ _).1]
  have hresLTV : ∀ (w0 : CustomersWidgetState) (f : CustomerFetchResults),
      (updateCustomerMetrics w0 f).LTV =
        (applyLTV (applyChurnRate (applyFetches w0 f)) f).LTV := by
    intro w0 f
    unfold updateCustomerMetrics
    rw [(applyLTVtoCAC_keeps _).1, (applyCAC_keeps _ _).2.1]
  have hcrpos2 : ∀ (w0 : CustomersWidgetState) (f : CustomerFetchResults)
      (ch : Int), 0 < f.totalCustomers → f.churnedCustomers = some ch →
      0 < ch → 0 < (applyChurnRate (applyFetches w0 f)).ChurnRate := by
    intro w0 f ch htot hch hchp
    rw [hcr2 w0 f ch htot hch]
    have hc : (0 : ℚ) < (ch : ℚ) := by exact_mod_cast hchp
    have ht : (0 : ℚ) < (f.totalCustomers : ℚ) := by exact_mod_cast htot
    positivity
  have hactive2 : ∀ (w0 : CustomersWidgetState) (f : CustomerFetchResults)
      (a : Int), f.activeCustomers = some a →
      (applyChurnRate (applyFetches w0 f)).ActiveCustomers = a := by
    intro w0 f a hact
    rw [(applyChurnRate_keeps _).2.2.1, applyFetches_active w0 f a hact]
  refine ⟨?_, ?_, ?_, ?_, ?_, ?_⟩
  · intro w0 f a ch m htot hact ha hch hchp hdb hmrr hm
    have hcrpos := hcrpos2 w0 f ch htot hch hchp
    have hactive := hactive2 w0 f a hact
    refine ⟨by rw [hresCR, hcr2 w0 f ch htot hch], ?_⟩
    rw [hresCR, hresLTV,
      applyLTV_pos _ f (by rw [hactive]; exact ha) hcrpos, hactive,
      avgRevenue_db f a m hdb hmrr hm]
  · intro w0 f a ch mf htot hact ha hch hchp hfb hfresh hmf
    have hcrpos := hcrpos2 w0 f ch htot hch hchp
    have hactive := hactive2 w0 f a hact
    rw [hresCR, hresLTV,
      applyLTV_pos _ f (by rw [hactive]; exact ha) hcrpos, hactive,
      avgRevenue_fallback f a hfb, freshOr29_pos f.freshMRR a mf hfresh hmf]
  · intro w0 f a ch htot hact ha hch hchp hfb hfresh
    have hcrpos := hcrpos2 w0 f ch htot hch hchp
    have hactive := hactive2 w0 f a hact
    rw [hresCR, hresLTV,
      applyLTV_pos _ f (by rw [hactive]; exact ha) hcrpos, hactive,
      avgRevenue_fallback f a hfb, freshOr29_nonpos f.freshMRR a hfresh]
  · intro w0 f htot hch
    have hcr := hcr2 w0 f 0 htot hch
    have hzero : (applyChurnRate (applyFetches w0 f)).ChurnRate = 0 := by
      rw [hcr]
      simp
    rw [hresLTV, applyLTV_zeroChurn _ f hzero, (applyChurnRate_keeps _).2.2.2.1,
      (applyFetches_keeps w0 f).2.2.1]
  · intro f c hcac hc
    have hCAC : (applyCAC (applyLTV (applyChurnRate
        (applyFetches initCustomersWidget f)) f) f).CAC = c :=
      applyCAC_some _ f c hcac
    unfold updateCustomerMetrics
    rw [applyLTVtoCAC_pos _ (by rw [hCAC]; exact hc), hCAC,
      (applyLTVtoCAC_keeps _).1]
  · intro f hcac
    have hCAC : (applyCAC (applyLTV (applyChurnRate
        (applyFetches initCustomersWidget f)) f) f).CAC = 0 ∨
        ¬ 0 < (applyCAC (applyLTV (applyChurnRate
          (applyFetches initCustomersWidget f)) f) f).CAC := by
      cases hc : f.cacEnv with
      | none =>
          left
          rw [applyCAC_none _ f hc, (applyLTV_keeps _ _).2.2.1,
            (applyChurnRate_keeps _).2.2.2.2.1, (applyFetches_keeps _ f).2.2.2.1]
          rfl
      | some c =>
          right
          rw [applyCAC_some _ f c hc]
          exact hcac c (by simp [hc])
    have hnpos : ¬ 0 < (applyCAC (applyLTV (applyChurnRate
        (applyFetches initCustomersWidget f)) f) f).CAC := by
      rcases hCAC with h | h
      · rw [h]
        simp
      · exact h
    unfold updateCustomerMetrics
    rw [applyLTVtoCAC_nonpos _ hnpos, (applyCAC_keeps _ _).2.2.1,
      (applyLTV_keeps _ _).2.2.2, (applyChurnRate_keeps _).2.2.2.2.2,
      (applyFetches_keeps _ f).2.2.2.2]
    rfl

/-- C5 counterexample: with 100 customers, 1 active, 5 churned (churn rate
5%), and the current MRR over active subscriptions equal to 0, the claim
predicts `LTV = (0/1)/(5/100) = 0`, but the code substitutes the default
average revenue 29.0 and computes `LTV = 29/(5/100) = 580`. -/
theorem updateCustomerMetrics_default_average_refutes_claim :
    (updateCustomerMetrics initCustomersWidget c5Fetch).LTV = 580 ∧
    ((0 : ℚ) / 1) / ((5 : ℚ) / 100) = 0 ∧
    (updateCustomerMetrics initCustomersWidget c5Fetch).LTV ≠
      ((0 : ℚ) / 1) / ((5 : ℚ) / 100) := by
  have h : (updateCustomerMetrics initCustomersWidget c5Fetch).LTV = 580 := by
    norm_num [updateCustomerMetrics, applyFetches, applyChurnRate, applyLTV,
      applyCAC, applyLTVtoCAC, avgRevenuePerCustomer, freshOr29,
      initCustomersWidget, c5Fetch]
  refine ⟨h, by norm_num, ?_⟩
  rw [h]
  norm_num

/-- Witness for `updateCustomerMetrics_ltv_spec`, exercising each conjunct
at concrete fetch results: the stored-snapshot MRR source, the fresh
positive-calculation source, the reachable 29.0 fallback (database
available, no positive stored or fresh value), zero churn, and both sides
of the CAC gate. -/
theorem updateCustomerMetrics_ltv_spec_witness :
    ((0 : Int) < 100 ∧ (0 : Int) < 10 ∧ (0 : Int) < 5 ∧ (0 : ℚ) < 290 ∧
      (0 : ℚ) < 150 ∧ (0 : ℚ) < 50) ∧
    ((updateCustomerMetrics initCustomersWidget c5WitnessFetch).ChurnRate =
        ((5 : Int) : ℚ) / ((c5WitnessFetch.totalCustomers : Int) : ℚ) * 100 ∧
      (updateCustomerMetrics initCustomersWidget c5WitnessFetch).LTV =
        ((290 : ℚ) / ((10 : Int) : ℚ)) /
          ((updateCustomerMetrics initCustomersWidget c5WitnessFetch).ChurnRate / 100)) ∧
    (updateCustomerMetrics initCustomersWidget c5FreshFetch).LTV =
      ((150 : ℚ) / ((10 : Int) : ℚ)) /
        ((updateCustomerMetrics initCustomersWidget c5FreshFetch).ChurnRate / 100) ∧
    (updateCustomerMetrics initCustomersWidget c5Fallback29Fetch).LTV =
      29 / ((updateCustomerMetrics initCustomersWidget c5Fallback29Fetch).ChurnRate / 100) ∧
    (updateCustomerMetrics initCustomersWidget
      { c5WitnessFetch with churnedCustomers := some 0 }).LTV =
        initCustomersWidget.LTV ∧
    (updateCustomerMetrics initCustomersWidget c5WitnessFetch).LTVtoCAC =
      (updateCustomerMetrics initCustomersWidget c5WitnessFetch).LTV / 50 ∧
    (updateCustomerMetrics initCustomersWidget
      { c5WitnessFetch with cacEnv := none }).LTVtoCAC = 0 :=
  ⟨⟨by decide, by decide, by decide, by decide, by decide, by decide⟩,
   updateCustomerMetrics_ltv_spec.1 initCustomersWidget c5WitnessFetch 10 5 290
     (by decide) rfl (by decide) rfl (by decide) rfl rfl (by decide),
   updateCustomerMetrics_ltv_spec.2.1 initCustomersWidget c5FreshFetch 10 5 150
     (by decide) rfl (by decide) rfl (by decide)
     (Or.inr fun m hm => by cases hm; decide) rfl (by decide),
   updateCustomerMetrics_ltv_spec.2.2.1 initCustomersWidget c5Fallback29Fetch 1 5
     (by decide) rfl (by decide) rfl (by decide)
     (Or.inr fun m hm => by cases hm)
     (fun c hc => by cases hc; decide),
   updateCustomerMetrics_ltv_spec.2.2.2.1 initCustomersWidget
     { c5WitnessFetch with churnedCustomers := some 0 } (by decide) rfl,
   updateCustomerMetrics_ltv_spec.2.2.2.2.1 c5WitnessFetch 50 rfl (by decide),
   updateCustomerMetrics_ltv_spec.2.2.2.2.2
     { c5WitnessFetch with cacEnv := none } (fun c hc => by cases hc)⟩

/-! ## C8: webhook HTTP contract -/

/-- C8: a non-POST request is answered 405; a POST whose signature fails
verification is answered 401 with the event log unchanged and no event
spawned (so the log also stays unchanged after asynchronous processing);
a POST with a verified signature is answered 200 with body
`{received: true, event_id: <id>}` and the parsed event is handed to the
asynchronous processor. -/
theorem handleWebhook_responses
    (verify : List Char → String → String → Option StripeEvent)
    (secret : String) (eventLog : List WebhookEvent) (req : WebhookRequest) :
    (req.method ≠ "POST" →
      HandleWebhook verify secret eventLog req =
        (eventLog, .errorResp 405 "Method not allowed", none)) ∧
    (∀ payload, req.method = "POST" → req.body = some payload →
      verify payload req.signature secret = none →
      HandleWebhook verify secret eventLog req =
        (eventLog, .errorResp 401 "Invalid signature", none)) ∧
    (∀ payload event, req.method = "POST" → req.body = some payload →
      verify payload req.signature secret = some event →
      HandleWebhook verify secret eventLog req =
        (eventLog, .jsonResp 200 true event.id, some event)) := by
  refine ⟨?_, ?_, ?_⟩
  · intro hm
    unfold HandleWebhook
    rw [if_pos hm]
  · intro payload hm hb hv
    unfold HandleWebhook
    rw [if_neg (by simp [hm]), hb]
    dsimp only
    rw [hv]
  · intro payload event hm hb hv
    unfold HandleWebhook
    rw [if_neg (by simp [hm]), hb]
    dsimp only
    rw [hv]

/-- Witness for `handleWebhook_responses` at a concrete verifier and three
concrete requests (a GET, a badly signed POST, a correctly signed POST). -/
theorem handleWebhook_responses_witness :
    HandleWebhook demoVerify "sec" [] ⟨"GET", some ['a'], "valid"⟩ =
      ([], .errorResp 405 "Method not allowed", none) ∧
    HandleWebhook demoVerify "sec" [] ⟨"POST", some ['a'], "bad"⟩ =
      ([], .errorResp 401 "Invalid signature", none) ∧
    HandleWebhook demoVerify "sec" [] ⟨"POST", some ['a'], "valid"⟩ =
      ([], .jsonResp 200 true "evt_1", some ⟨"evt_1", "customer.created", true⟩) :=
  ⟨(handleWebhook_responses demoVerify "sec" []
      ⟨"GET", some ['a'], "valid"⟩).1 (by decide),
   (handleWebhook_responses demoVerify "sec" []
      ⟨"POST", some ['a'], "bad"⟩).2.1 ['a'] rfl rfl rfl,
   (handleWebhook_responses demoVerify "sec" []
      ⟨"POST", some ['a'], "valid"⟩).2.2 ['a'] ⟨"evt_1", "customer.created", true⟩
     rfl rfl rfl⟩

/-! ## C10: unhandled event types are processed without any effect -/

/-- C10: when no handler is registered for a verified event's type,
`processEvent` returns before logging and before cache invalidation — the
bounded event log is not appended to and the invalidator is never called,
although the HTTP reply was already 200.  In particular `customer.updated`
is mapped by `invalidateCachesForEvent` to the customers cache but receives
no handler from `GetWebhookHandler`'s default registrations, so with the
default handler map a `customer.updated` event invalidates nothing. -/
theorem processEvent_unhandled_no_effect :
    (∀ (handlers : String → List EventHandlerFunc) (hasInvalidator : Bool)
      (now : Int) (eventLog : List WebhookEvent) (maxEventLog : Nat)
      (event : StripeEvent),
      handlers event.type = [] →
      processEvent handlers hasInvalidator now eventLog maxEventLog event =
        (eventLog, none)) ∧
    (∀ h1 h2 h3 h4 h5 h6 h7 : EventHandlerFunc,
      defaultHandlers h1 h2 h3 h4 h5 h6 h7 "customer.updated" = [] ∧
      invalidateCachesForEvent "customer.updated" = some "customers") ∧
    (∀ (h1 h2 h3 h4 h5 h6 h7 : EventHandlerFunc) (now : Int)
      (eventLog : List WebhookEvent) (maxEventLog : Nat) (id : String)
      (livemode : Bool),
      processEvent (defaultHandlers h1 h2 h3 h4 h5 h6 h7) true now eventLog
        maxEventLog ⟨id, "customer.updated", livemode⟩ = (eventLog, none)) := by
  have hmain : ∀ (handlers : String → List EventHandlerFunc)
      (hasInvalidator : Bool) (now : Int) (eventLog : List WebhookEvent)
      (maxEventLog : Nat) (event : StripeEvent),
      handlers event.type = [] →
      processEvent handlers hasInvalidator now eventLog maxEventLog event =
        (eventLog, none) := by
    intro handlers hasInvalidator now eventLog maxEventLog event h
    unfold processEvent
    rw [h]
    rfl
  refine ⟨hmain, fun h1 h2 h3 h4 h5 h6 h7 => ⟨rfl, rfl⟩, ?_⟩
  intro h1 h2 h3 h4 h5 h6 h7 now eventLog maxEventLog id livemode
  exact hmain _ true now eventLog maxEventLog ⟨id, "customer.updated", livemode⟩ rfl

/-- Witness for `processEvent_unhandled_no_effect`: the empty handler map
and, for the default registrations, trivial handlers. -/
theorem processEvent_unhandled_no_effect_witness :
    processEvent (fun _ => []) true 7 [] 100 ⟨"evt_9", "charge.refunded", true⟩ =
      ([], none) ∧
    defaultHandlers (fun _ => none) (fun _ => none) (fun _ => none)
      (fun _ => none) (fun _ => none) (fun _ => none) (fun _ => none)
      "customer.updated" = [] ∧
    processEvent (defaultHandlers (fun _ => none) (fun _ => none)
      (fun _ => none) (fun _ => none) (fun _ => none) (fun _ => none)
      (fun _ => none)) true 7 [] 100 ⟨"evt_9", "customer.updated", true⟩ =
      ([], none) :=
  ⟨processEvent_unhandled_no_effect.1 (fun _ => []) true 7 [] 100
     ⟨"evt_9", "charge.refunded", true⟩ rfl,
   (processEvent_unhandled_no_effect.2.1 (fun _ => none) (fun _ => none)
     (fun _ => none) (fun _ => none) (fun _ => none) (fun _ => none)
     (fun _ => none)).1,
   processEvent_unhandled_no_effect.2.2 (fun _ => none) (fun _ => none)
     (fun _ => none) (fun _ => none) (fun _ => none) (fun _ => none)
     (fun _ => none) 7 [] 100 "evt_9" true⟩

/-! ## C4: `encryptIfNeeded`/`decryptIfNeeded` round trip -/

theorem base64encode_ne_nil (l : List Nat) (h : l ≠ []) :
    base64encode l ≠ [] := by
  match l with
  | [] => exact absurd rfl h
  | [b0] => simp [base64encode]
  | [b0, b1] => simp [base64encode]
  | b0 :: b1 :: b2 :: rest => simp [base64encode]

/-- C4 counterexample: a value that already carries the `encrypted:` prefix
is passed through by `EncryptIfNeeded`, after which `DecryptIfNeeded`
strips the prefix and tries to base64-decode the remainder `"abc"`, which
is malformed (three characters), so the round trip yields a decode error
instead of the original value. -/
theorem decryptIfNeeded_encryptIfNeeded_fails_on_prefixed :
    EncryptIfNeeded seal0 nonce0 "encrypted:abc".toList =
      "encrypted:abc".toList ∧
    DecryptIfNeeded opn0 (EncryptIfNeeded seal0 nonce0 "encrypted:abc".toList) =
      .error "failed to decode base64" ∧
    DecryptIfNeeded opn0 (EncryptIfNeeded seal0 nonce0 "encrypted:abc".toList) ≠
      .ok "encrypted:abc".toList := by
  refine ⟨rfl, rfl, fun h => ?_⟩
  rw [show DecryptIfNeeded opn0
      (EncryptIfNeeded seal0 nonce0 "encrypted:abc".toList) =
      (.error "failed to decode base64" : Except String (List Char))
    from rfl] at h
  exact Except.noConfusion h

/-- C4 amended: for every non-empty value that does not already carry the
`encrypted:` prefix (length > 10 and prefix match, per the code's test),
and for any cipher whose `Decrypt` inverts its `Encrypt` on that value,
`DecryptIfNeeded (EncryptIfNeeded x) = x`; and `EncryptIfNeeded` is
idempotent on every value (its output either is unchanged input or carries
the prefix with a non-empty payload, which passes through). -/
theorem encryptIfNeeded_roundtrip_amended :
    (∀ (sealFn : List Nat → List Char → List Nat)
        (opn : List Nat → List Nat → Option (List Char))
        (nonce : List Nat) (x : List Char),
      x ≠ [] →
      ¬(10 < x.length ∧ x.take 10 = encPrefix) →
      Decrypt opn (Encrypt sealFn nonce x) = .ok x →
      DecryptIfNeeded opn (EncryptIfNeeded sealFn nonce x) = .ok x) ∧
    (∀ (sealFn : List Nat → List Char → List Nat) (nonce : List Nat),
      nonce ≠ [] →
      ∀ x : List Char,
        EncryptIfNeeded sealFn nonce (EncryptIfNeeded sealFn nonce x) =
          EncryptIfNeeded sealFn nonce x) := by
  constructor
  · intro sealFn opn nonce x hx hnp hrt
    have hEne : Encrypt sealFn nonce x ≠ [] := by
      intro h
      rw [h] at hrt
      unfold Decrypt at hrt
      rw [if_pos rfl] at hrt
      injection hrt with h2
      exact hx h2.symm
    unfold EncryptIfNeeded
    rw [if_neg hx, if_neg hnp]
    unfold DecryptIfNeeded
    rw [if_neg (by simp [encPrefix])]
    have hlen : 10 < (encPrefix ++ Encrypt sealFn nonce x).length := by
      rw [List.length_append]
      have h2 := List.length_pos.mpr hEne
      have h3 : encPrefix.length = 10 := rfl
      omega
    have ht : (encPrefix ++ Encrypt sealFn nonce x).take 10 = encPrefix := by
      rw [show (10 : Nat) = encPrefix.length from rfl, List.take_left]
    have hd : (encPrefix ++ Encrypt sealFn nonce x).drop 10 = Encrypt sealFn nonce x := by
      rw [show (10 : Nat) = encPrefix.length from rfl, List.drop_left]
    rw [if_pos ⟨hlen, ht⟩, hd]
    exact hrt
  · intro sealFn nonce hn x
    by_cases hx : x = []
    · subst hx
      rfl
    · by_cases hp : 10 < x.length ∧ x.take 10 = encPrefix
      · have h1 : EncryptIfNeeded sealFn nonce x = x := by
          unfold EncryptIfNeeded
          rw [if_neg hx, if_pos hp]
        rw [h1]
        exact h1
      · have h1 : EncryptIfNeeded sealFn nonce x =
            encPrefix ++ Encrypt sealFn nonce x := by
          unfold EncryptIfNeeded
          rw [if_neg hx, if_neg hp]
        have hEne : Encrypt sealFn nonce x ≠ [] := by
          unfold Encrypt
          rw [if_neg hx]
          apply base64encode_ne_nil
          simp [hn]
        have hlen : 10 < (encPrefix ++ Encrypt sealFn nonce x).length := by
          rw [List.length_append]
          have h2 := List.length_pos.mpr hEne
          have h3 : encPrefix.length = 10 := rfl
          omega
        have ht : (encPrefix ++ Encrypt sealFn nonce x).take 10 = encPrefix := by
          rw [show (10 : Nat) = encPrefix.length from rfl, List.take_left]
        rw [h1]
        unfold EncryptIfNeeded
        rw [if_neg (by simp [encPrefix]), if_pos ⟨hlen, ht⟩]

/-- Witness for `encryptIfNeeded_roundtrip_amended`: the one-byte plaintext
`"k"` under the toy cipher round-trips, and idempotence holds at an
already-prefixed value. -/
theorem encryptIfNeeded_roundtrip_amended_witness :
    ("k".toList ≠ ([] : List Char) ∧
     ¬(10 < "k".toList.length ∧ "k".toList.take 10 = encPrefix) ∧
     Decrypt opn0 (Encrypt seal0 nonce0 "k".toList) = .ok "k".toList ∧
     nonce0 ≠ []) ∧
    DecryptIfNeeded opn0 (EncryptIfNeeded seal0 nonce0 "k".toList) =
      .ok "k".toList ∧
    EncryptIfNeeded seal0 nonce0
        (EncryptIfNeeded seal0 nonce0 "encrypted:abc".toList) =
      EncryptIfNeeded seal0 nonce0 "encrypted:abc".toList :=
  ⟨⟨by decide, by decide, rfl, by decide⟩,
   encryptIfNeeded_roundtrip_amended.1 seal0 opn0 nonce0 "k".toList
     (by decide) (by decide) rfl,
   encryptIfNeeded_roundtrip_amended.2 seal0 nonce0 (by decide)
     "encrypted:abc".toList⟩

end Glance
